import Mathlib

/-!
Verification of the conntivity connectivity monitor.

The definitions below are a shallow embedding of the monitor module
(fetch-based connectivity monitor) and of the diagnostics module.
Network effects are supplied as explicit inputs: a poll tick receives the
list of per-endpoint probe outcomes, and a diagnostics run receives the
per-endpoint reachability together with the resource-timing lookup.
-/

namespace Conntivity

/-- Constants of the monitor module. -/
def PING_TIMEOUT_MS : Nat := 5000

def FAILURES_FOR_OUTAGE : Nat := 3

def DEGRADED_LATENCY_MS : Nat := 300

def HISTORY_SIZE : Nat := 600

/-- The `STATUS` enumeration: connected / degraded / disconnected / unknown. -/
inductive Status where
  | connected
  | degraded
  | disconnected
  | unknown
deriving DecidableEq, Repr

/-- A latency history entry: `{ time: Date.now(), rtt }`. -/
structure Sample where
  time : Nat
  rtt : Nat
deriving DecidableEq, Repr

/-- Resource-timing breakdown (durations are float-valued in the source;
modelled as rationals). -/
structure Timing where
  dns : ℚ
  connect : ℚ
  ttfb : ℚ
  download : ℚ
  total : ℚ
deriving DecidableEq, Repr

/-- Events emitted through the monitor's callback lists. -/
inductive Event where
  | statusChange (status : Status) (rtt : Option Nat) (history : List Sample)
  | latencyUpdate (rtt : Option Nat) (history : List Sample) (timing : Option Timing)
  | outageDetected (consecutiveFailures : Nat)
deriving DecidableEq, Repr

/-- Mutable monitor state touched by a poll tick: the consecutive-failure
counter and the latency history array. -/
structure MState where
  consecutiveFailures : Nat
  latencyHistory : List Sample
deriving DecidableEq, Repr

/-- The history append of a successful tick:
`latencyHistory.push(sample); if (latencyHistory.length > HISTORY_SIZE) latencyHistory.shift()`. -/
def pushSample (h : List Sample) (x : Sample) : List Sample :=
  let h2 := h ++ [x]
  if HISTORY_SIZE < h2.length then h2.tail else h2

/-- Outcome of `pingOne` for one endpoint: `none` on failure, otherwise the
rounded round-trip time and the optional resource-timing breakdown. -/
abbrev PingOutcome := Option (Nat × Option Timing)

/-- One poll tick (`ping`). The endpoints are tried sequentially in order;
the argument list holds the outcome each endpoint's probe would produce.
On the first success the counter resets, the sample is appended and a
`latencyUpdate` fires; if every endpoint fails the counter is incremented,
`outageDetected` fires once the counter is at least `FAILURES_FOR_OUTAGE`,
and a null-rtt `latencyUpdate` fires with the unchanged history. -/
def ping (now : Nat) (s : MState) : List PingOutcome → MState × List Event
  | some (rtt, timing) :: _ =>
      let history := pushSample s.latencyHistory ⟨now, rtt⟩
      ({ consecutiveFailures := 0, latencyHistory := history },
       [Event.latencyUpdate (some rtt) history timing])
  | none :: rest => ping now s rest
  | [] =>
      let cf := s.consecutiveFailures + 1
      ({ s with consecutiveFailures := cf },
       (if FAILURES_FOR_OUTAGE ≤ cf then [Event.outageDetected cf] else [])
         ++ [Event.latencyUpdate none s.latencyHistory none])

/-- The pure status classifier `computeStatus(rtt, history)`. -/
def computeStatus (rtt : Option Nat) (history : List Sample) : Status :=
  match rtt with
  | none => Status.disconnected
  | some r =>
      let recent := history.drop (history.length - 30)
      let successRate : ℚ := (recent.length : ℚ) / 30
      if successRate < 0.7 then Status.degraded
      else if DEGRADED_LATENCY_MS ≤ r then Status.degraded
      else Status.connected

/-- The trailing window `history.slice(-30)` has `min 30 |history|` entries. -/
lemma recent_length (H : List Sample) :
    (H.drop (H.length - 30)).length = min 30 H.length := by
  rw [List.length_drop]
  omega

/-- The success-rate test `n / 30 < 0.7` holds exactly when `n < 21`. -/
lemma successRate_lt_iff (n : Nat) : ((n : ℚ) / 30 < 0.7) ↔ n < 21 := by
  rw [div_lt_iff₀ (by norm_num : (0 : ℚ) < 30)]
  norm_num

/-- Evaluation of the classifier at an arbitrary present rtt, split on the
window test, shared by the claims about `computeStatus`. -/
lemma computeStatus_some (r : Nat) (H : List Sample) :
    computeStatus (some r) H =
      if min 30 H.length < 21 then Status.degraded
      else if 300 ≤ r then Status.degraded
      else Status.connected := by
  simp only [computeStatus, DEGRADED_LATENCY_MS]
  rw [recent_length]
  simp only [successRate_lt_iff]

/-- C4: `computeStatus` is the pure function of the claim: a null rtt is
`disconnected`; a window of fewer than 21 recent entries is `degraded`;
otherwise an rtt of at least 300 ms is `degraded`, and anything else is
`connected`. -/
theorem computeStatus_spec (H : List Sample) (r : Nat) :
    computeStatus none H = Status.disconnected
    ∧ (min 30 H.length < 21 → computeStatus (some r) H = Status.degraded)
    ∧ (21 ≤ min 30 H.length → 300 ≤ r → computeStatus (some r) H = Status.degraded)
    ∧ (21 ≤ min 30 H.length → r < 300 → computeStatus (some r) H = Status.connected) := by
  refine ⟨rfl, ?_, ?_, ?_⟩ <;> intro h1 <;> rw [computeStatus_some]
  · rw [if_pos h1]
  · intro h2
    rw [if_neg (by omega), if_pos h2]
  · intro h2
    rw [if_neg (by omega), if_neg (by omega)]

/-- Concrete instances of `computeStatus_spec`: the empty history, and a
full 30-entry window at rtt 300 and at rtt 250. -/
theorem computeStatus_spec_witness :
    computeStatus none [] = Status.disconnected
    ∧ (min 30 (List.length ([] : List Sample)) < 21
        ∧ computeStatus (some 40) [] = Status.degraded)
    ∧ (21 ≤ min 30 (List.replicate 30 (⟨0, 50⟩ : Sample)).length
        ∧ 300 ≤ 300
        ∧ computeStatus (some 300) (List.replicate 30 (⟨0, 50⟩ : Sample)) = Status.degraded)
    ∧ (250 < 300
        ∧ computeStatus (some 250) (List.replicate 30 (⟨0, 50⟩ : Sample)) = Status.connected) :=
  ⟨(computeStatus_spec [] 40).1,
   ⟨by decide, (computeStatus_spec [] 40).2.1 (by decide)⟩,
   ⟨by simp, by decide, (computeStatus_spec _ 300).2.2.1 (by simp) (by decide)⟩,
   ⟨by decide, (computeStatus_spec _ 250).2.2.2 (by simp) (by decide)⟩⟩

/-- C5: whenever the trailing window holds fewer than 21 entries the
classifier answers `degraded`, whatever the (present) rtt is. -/
theorem computeStatus_short_window_degraded (r : Nat) (H : List Sample)
    (hshort : min 30 H.length < 21) :
    computeStatus (some r) H = Status.degraded := by
  rw [computeStatus_some, if_pos hshort]

/-- Concrete instance of `computeStatus_short_window_degraded` at a fast
rtt of 1 ms over a 20-entry history. -/
theorem computeStatus_short_window_degraded_witness :
    min 30 (List.replicate 20 (⟨0, 50⟩ : Sample)).length < 21
    ∧ computeStatus (some 1) (List.replicate 20 (⟨0, 50⟩ : Sample)) = Status.degraded :=
  ⟨by simp, computeStatus_short_window_degraded 1 _ (by simp)⟩

/-- C6: appending one sample to a history of length at most 600 keeps the
length at most 600; below capacity the sample is appended, at capacity the
oldest entry is dropped and the sample appended. -/
theorem history_append_bounded (H : List Sample) (x : Sample) (hH : H.length ≤ 600) :
    (pushSample H x).length ≤ 600
    ∧ (H.length < 600 → pushSample H x = H ++ [x])
    ∧ (H.length = 600 → pushSample H x = H.tail ++ [x]) := by
  refine ⟨?_, ?_, ?_⟩
  · simp only [pushSample, HISTORY_SIZE]
    split
    · simp
      omega
    · simp at *
      omega
  · intro hlt
    simp only [pushSample, HISTORY_SIZE]
    rw [if_neg (by simp; omega)]
  · intro heq
    simp only [pushSample, HISTORY_SIZE]
    rw [if_pos (by simp; omega)]
    match H, heq with
    | a :: t, _ => simp

/-- Concrete instances of `history_append_bounded`: an empty history and a
history exactly at capacity. -/
theorem history_append_bounded_witness :
    (List.length ([] : List Sample) ≤ 600
      ∧ (List.length ([] : List Sample) < 600
          ∧ pushSample [] ⟨0, 5⟩ = [] ++ [(⟨0, 5⟩ : Sample)]))
    ∧ ((List.replicate 600 (⟨0, 5⟩ : Sample)).length ≤ 600
      ∧ ((List.replicate 600 (⟨0, 5⟩ : Sample)).length = 600
          ∧ pushSample (List.replicate 600 (⟨0, 5⟩ : Sample)) ⟨1, 6⟩
              = (List.replicate 600 (⟨0, 5⟩ : Sample)).tail ++ [(⟨1, 6⟩ : Sample)])) :=
  ⟨⟨by decide, by decide,
     (history_append_bounded [] ⟨0, 5⟩ (by decide)).2.1 (by decide)⟩,
   ⟨by rw [List.length_replicate], by rw [List.length_replicate],
     (history_append_bounded (List.replicate 600 ⟨0, 5⟩) ⟨1, 6⟩
       (by rw [List.length_replicate])).2.2 (by rw [List.length_replicate])⟩⟩

/-- Evaluation of a tick on which every endpoint fails: the counter is
incremented, the history untouched, the outage event fires at the threshold
and the null-rtt latency update always fires. -/
lemma ping_allFail (now : Nat) (s : MState) (outs : List PingOutcome)
    (h : ∀ o ∈ outs, o = none) :
    ping now s outs
      = ({ s with consecutiveFailures := s.consecutiveFailures + 1 },
         (if FAILURES_FOR_OUTAGE ≤ s.consecutiveFailures + 1
          then [Event.outageDetected (s.consecutiveFailures + 1)] else [])
           ++ [Event.latencyUpdate none s.latencyHistory none]) := by
  induction outs with
  | nil => rfl
  | cons a rest ih =>
      have ha := h a (List.mem_cons_self a rest)
      subst ha
      exact ih fun o ho => h o (List.mem_cons_of_mem _ ho)

/-- Evaluation of a tick whose first success comes after a run of failures:
the endpoints after the success are never consulted, the counter resets,
the sample is appended and a single latency update fires. -/
lemma ping_firstSuccess (now : Nat) (s : MState) (pre rest : List PingOutcome)
    (rtt : Nat) (t : Option Timing) (h : ∀ o ∈ pre, o = none) :
    ping now s (pre ++ some (rtt, t) :: rest)
      = ({ consecutiveFailures := 0,
           latencyHistory := pushSample s.latencyHistory ⟨now, rtt⟩ },
         [Event.latencyUpdate (some rtt) (pushSample s.latencyHistory ⟨now, rtt⟩) t]) := by
  induction pre with
  | nil => rfl
  | cons a pre ih =>
      have ha := h a (List.mem_cons_self a pre)
      subst ha
      exact ih fun o ho => h o (List.mem_cons_of_mem _ ho)

/-- C2: a tick emits `outageDetected k` exactly when every endpoint failed
on that tick and `k`, the incremented counter, is at least 3 — so the event
fires on the tick reaching 3, again on each further consecutive failure,
and never on a tick where some endpoint succeeded. -/
theorem ping_outage_iff (now : Nat) (s : MState) (outs : List PingOutcome) (k : Nat) :
    Event.outageDetected k ∈ (ping now s outs).2 ↔
      ((∀ o ∈ outs, o = none)
        ∧ k = s.consecutiveFailures + 1
        ∧ FAILURES_FOR_OUTAGE ≤ k) := by
  induction outs with
  | nil =>
      by_cases h : FAILURES_FOR_OUTAGE ≤ s.consecutiveFailures + 1
      · simp only [ping, if_pos h]
        constructor
        · intro hm
          rcases List.mem_append.mp hm with hm | hm
          · simp at hm
            exact ⟨by simp, hm, hm ▸ h⟩
          · simp at hm
        · rintro ⟨-, rfl, -⟩
          simp
      · simp only [ping, if_neg h, List.nil_append]
        constructor
        · intro hm
          simp at hm
        · rintro ⟨-, rfl, hk⟩
          exact absurd hk h
  | cons a rest ih =>
      rcases a with - | ⟨rtt, t⟩
      · simpa [ping] using ih
      · simp [ping]

/-- C3: a poll tick probes endpoints sequentially in order. On the first
success the counter resets to zero, one sample is appended (FIFO-evicting
at capacity) and one latency update with the new rtt and the history fires
— the remaining endpoints are not consulted. When every endpoint fails the
counter is incremented, the history is unchanged, and a latency update with
a null rtt and the unchanged history fires. -/
theorem ping_tick_spec (now : Nat) (s : MState) :
    (∀ (pre rest : List PingOutcome) (rtt : Nat) (t : Option Timing),
        (∀ o ∈ pre, o = none) →
        ping now s (pre ++ some (rtt, t) :: rest)
          = ({ consecutiveFailures := 0,
               latencyHistory := pushSample s.latencyHistory ⟨now, rtt⟩ },
             [Event.latencyUpdate (some rtt) (pushSample s.latencyHistory ⟨now, rtt⟩) t]))
    ∧ (∀ outs : List PingOutcome, (∀ o ∈ outs, o = none) →
        ping now s outs
          = ({ s with consecutiveFailures := s.consecutiveFailures + 1 },
             (if FAILURES_FOR_OUTAGE ≤ s.consecutiveFailures + 1
              then [Event.outageDetected (s.consecutiveFailures + 1)] else [])
               ++ [Event.latencyUpdate none s.latencyHistory none])) :=
  ⟨fun pre rest rtt t h => ping_firstSuccess now s pre rest rtt t h,
   fun outs h => ping_allFail now s outs h⟩

/-- Concrete instances of `ping_tick_spec`: a tick succeeding at the second
endpoint from a 2-failure streak, and a tick on which all three endpoints
fail from the same streak. -/
theorem ping_tick_spec_witness :
    ((∀ o ∈ [(none : PingOutcome)], o = none)
      ∧ ping 0 ⟨2, []⟩ ([none] ++ some (42, none) :: [none])
          = (⟨0, pushSample [] ⟨0, 42⟩⟩,
             [Event.latencyUpdate (some 42) (pushSample [] ⟨0, 42⟩) none]))
    ∧ ((∀ o ∈ [(none : PingOutcome), none, none], o = none)
      ∧ ping 0 ⟨2, []⟩ [none, none, none]
          = (⟨3, []⟩,
             (if FAILURES_FOR_OUTAGE ≤ 2 + 1 then [Event.outageDetected (2 + 1)] else [])
               ++ [Event.latencyUpdate none [] none])) :=
  ⟨⟨by simp, (ping_tick_spec 0 ⟨2, []⟩).1 [none] [none] 42 none (by simp)⟩,
   ⟨by simp, (ping_tick_spec 0 ⟨2, []⟩).2 [none, none, none] (by simp)⟩⟩

/-- A registered `latencyUpdate` callback: either the module-internal
status-derivation listener `onLatencyUpdate` or an external subscriber. -/
inductive CB where
  | onLatencyUpdate
  | other (id : Nat)
deriving DecidableEq, Repr

/-- The module state outside one tick: the poll-tick state, the interval
handle and the `latencyUpdate` callback list. -/
structure FullState where
  mon : MState
  intervalId : Option Nat
  latencyUpdateCbs : List CB
deriving DecidableEq, Repr

/-- State transformation of `startMonitoring` up to the point the initial
`ping()` begins: clear any previously scheduled interval, emit the unknown
status, and register the status-derivation listener if it is absent. The
consecutive-failure counter and the history are not touched. -/
def startMonitoringPre (s : FullState) : FullState × List Event :=
  let s1 := if s.intervalId.isSome then { s with intervalId := none } else s
  let s2 := if CB.onLatencyUpdate ∈ s1.latencyUpdateCbs then s1
            else { s1 with latencyUpdateCbs := s1.latencyUpdateCbs ++ [CB.onLatencyUpdate] }
  (s2, [Event.statusChange Status.unknown none []])

/-- `startMonitoring` leaves the whole poll-tick state untouched. -/
lemma startMonitoringPre_mon (s : FullState) :
    (startMonitoringPre s).1.mon = s.mon := by
  simp only [startMonitoringPre]
  split <;> split <;> rfl

/-- C1 is false as stated; the counterexample `startMonitoring_no_reset_cex`
shows a 2-failure streak surviving a restart and producing an outage on the
first failing tick of the new cycle. Amended: `startMonitoring` leaves the
consecutive-failure counter unchanged before the first probe of the new
cycle, so a failure streak accumulated before the restart still counts
toward a later outage event. -/
theorem startMonitoring_preserves_counter (s : FullState) :
    (startMonitoringPre s).1.mon.consecutiveFailures = s.mon.consecutiveFailures
    ∧ (∀ (now : Nat) (outs : List PingOutcome), (∀ o ∈ outs, o = none) →
        FAILURES_FOR_OUTAGE ≤ s.mon.consecutiveFailures + 1 →
        Event.outageDetected (s.mon.consecutiveFailures + 1)
          ∈ (ping now (startMonitoringPre s).1.mon outs).2) := by
  have hmon := startMonitoringPre_mon s
  refine ⟨by rw [hmon], ?_⟩
  intro now outs h hth
  rw [hmon, ping_allFail now s.mon outs h]
  simp [hth]

/-- C1, counterexample: from a state with a 2-failure streak and a running
cycle, `startMonitoring` leaves the counter at 2 (not 0), and the first
full-cycle failure of the restarted cycle already raises `outageDetected`
with count 3 — the pre-restart streak contributed. -/
theorem startMonitoring_no_reset_cex :
    (startMonitoringPre ⟨⟨2, []⟩, some 7, [CB.onLatencyUpdate]⟩).1.mon.consecutiveFailures ≠ 0
    ∧ Event.outageDetected 3
        ∈ (ping 0 (startMonitoringPre ⟨⟨2, []⟩, some 7, [CB.onLatencyUpdate]⟩).1.mon
            [none, none, none]).2 := by
  decide

/-- Concrete instance of `startMonitoring_preserves_counter`: restart with a
2-failure streak, then a single failing tick raises the outage event. -/
theorem startMonitoring_preserves_counter_witness :
    (∀ o ∈ [(none : PingOutcome)], o = none)
    ∧ FAILURES_FOR_OUTAGE ≤ 2 + 1
    ∧ Event.outageDetected (2 + 1)
        ∈ (ping 0 (startMonitoringPre ⟨⟨2, []⟩, none, []⟩).1.mon [none]).2 :=
  ⟨by simp, by decide,
   (startMonitoring_preserves_counter ⟨⟨2, []⟩, none, []⟩).2 0 [none] (by simp) (by decide)⟩

/-- Operations that touch the `latencyUpdate` callback list:
`startMonitoring`, `stopMonitoring`, and external `on` / `off` calls. -/
inductive MonOp where
  | start
  | stop
  | subscribeOther (id : Nat)
  | unsubscribeOther (id : Nat)

/-- The `indexOf` / `splice(i, 1)` idiom: remove the first occurrence of an
element from the list, if present. -/
def removeFirstCb : List CB → CB → List CB
  | [], _ => []
  | a :: l, x => if a = x then l else a :: removeFirstCb l x

/-- Effect of each operation on the `latencyUpdate` callback list.
`start` registers `onLatencyUpdate` only when absent; `stop` removes its
first occurrence; `on` pushes unconditionally; `off` removes a first
occurrence. -/
def applyOp (cbs : List CB) : MonOp → List CB
  | MonOp.start =>
      if CB.onLatencyUpdate ∈ cbs then cbs else cbs ++ [CB.onLatencyUpdate]
  | MonOp.stop => removeFirstCb cbs CB.onLatencyUpdate
  | MonOp.subscribeOther n => cbs ++ [CB.other n]
  | MonOp.unsubscribeOther n => removeFirstCb cbs (CB.other n)

/-- The `statusChange` events produced when a `latencyUpdate` event is
emitted through a callback list: each registered `onLatencyUpdate` listener
reclassifies and emits one `statusChange`; external listeners emit none. -/
def derivedStatusEvents (cbs : List CB) (rtt : Option Nat) (history : List Sample) :
    List Event :=
  cbs.filterMap fun cb =>
    match cb with
    | CB.onLatencyUpdate =>
        some (Event.statusChange (computeStatus rtt history) rtt history)
    | CB.other _ => none

/-- Removing a first occurrence never increases an element's multiplicity. -/
lemma count_removeFirstCb_le (l : List CB) (x a : CB) :
    (removeFirstCb l x).count a ≤ l.count a := by
  induction l with
  | nil => simp [removeFirstCb]
  | cons b l ih =>
      simp only [removeFirstCb]
      split
      · simp [List.count_cons]
      · simp only [List.count_cons]
        omega

/-- Each callback-list operation preserves "the status listener is
registered at most once". -/
lemma count_applyOp (cbs : List CB) (op : MonOp)
    (h : cbs.count CB.onLatencyUpdate ≤ 1) :
    (applyOp cbs op).count CB.onLatencyUpdate ≤ 1 := by
  cases op with
  | start =>
      simp only [applyOp]
      split
      · exact h
      · rename_i hmem
        rw [List.count_append]
        rw [List.count_eq_zero.mpr hmem]
        simp
  | stop => exact le_trans (count_removeFirstCb_le _ _ _) h
  | subscribeOther n =>
      simp only [applyOp, List.count_append]
      simpa using h
  | unsubscribeOther n => exact le_trans (count_removeFirstCb_le _ _ _) h

/-- The invariant survives any sequence of operations. -/
lemma foldl_count_le (ops : List MonOp) (init : List CB)
    (h : init.count CB.onLatencyUpdate ≤ 1) :
    (ops.foldl applyOp init).count CB.onLatencyUpdate ≤ 1 := by
  induction ops generalizing init with
  | nil => exact h
  | cons op ops ih => exact ih _ (count_applyOp init op h)

/-- One derived `statusChange` event per registered status listener. -/
lemma derivedStatusEvents_length (cbs : List CB) (rtt : Option Nat)
    (history : List Sample) :
    (derivedStatusEvents cbs rtt history).length = cbs.count CB.onLatencyUpdate := by
  induction cbs with
  | nil => rfl
  | cons cb cbs ih =>
      cases cb with
      | onLatencyUpdate =>
          simp [derivedStatusEvents, List.count_cons] at *
          omega
      | other n =>
          simpa [derivedStatusEvents, List.count_cons] using ih

/-- C10: starting from the initial empty callback list, after any sequence
of `startMonitoring` / `stopMonitoring` / `on` / `off` operations the
status-derivation listener appears at most once in the `latencyUpdate`
callback list, so an emitted latency update yields at most one derived
`statusChange` event — never duplicates. -/
theorem onLatencyUpdate_registered_at_most_once (ops : List MonOp)
    (rtt : Option Nat) (history : List Sample) :
    (ops.foldl applyOp []).count CB.onLatencyUpdate ≤ 1
    ∧ (derivedStatusEvents (ops.foldl applyOp []) rtt history).length ≤ 1 := by
  refine ⟨foldl_count_le ops [] (by simp), ?_⟩
  rw [derivedStatusEvents_length]
  exact foldl_count_le ops [] (by simp)

/-- A small store of array references: JavaScript arrays are mutable
objects, so aliasing questions are posed over an explicit heap whose
addresses are indices. -/
structure ArrayHeap where
  arrs : List (List Sample)
deriving DecidableEq, Repr

/-- Read the array stored at an address. -/
def readArr (h : ArrayHeap) (r : Nat) : List Sample := h.arrs.getD r []

/-- Replace the array stored at an address. -/
def writeArr (h : ArrayHeap) (r : Nat) (v : List Sample) : ArrayHeap :=
  ⟨h.arrs.set r v⟩

/-- `getLatencyHistory()` — `return [...latencyHistory]`: allocates a fresh
array holding the same samples and returns its (new) address. -/
def getLatencyHistoryH (h : ArrayHeap) (histRef : Nat) : ArrayHeap × Nat :=
  (⟨h.arrs ++ [readArr h histRef]⟩, h.arrs.length)

/-- C9: the array returned by `getLatencyHistory` is a defensive copy: its
address is distinct from the internal history's, its contents equal the
internal history, and overwriting it with any caller-side mutation leaves
the internal history exactly as it was. -/
theorem getLatencyHistory_defensive_copy (h : ArrayHeap) (histRef : Nat)
    (f : List Sample → List Sample) (hr : histRef < h.arrs.length) :
    (getLatencyHistoryH h histRef).2 ≠ histRef
    ∧ readArr (getLatencyHistoryH h histRef).1 (getLatencyHistoryH h histRef).2
        = readArr h histRef
    ∧ readArr
        (writeArr (getLatencyHistoryH h histRef).1 (getLatencyHistoryH h histRef).2
          (f (readArr h histRef)))
        histRef
        = readArr h histRef := by
  refine ⟨by simp only [getLatencyHistoryH]; omega, ?_, ?_⟩
  · simp only [getLatencyHistoryH, readArr, List.getD, List.get?_eq_getElem?]
    rw [List.getElem?_concat_length]
    rfl
  · simp only [getLatencyHistoryH, readArr, writeArr, List.getD, List.get?_eq_getElem?]
    rw [List.getElem?_set_ne (show (h.arrs).length ≠ histRef by omega)]
    rw [List.getElem?_append_left hr]

/-- Concrete instance of `getLatencyHistory_defensive_copy`: a one-array
heap whose caller empties the returned copy. -/
theorem getLatencyHistory_defensive_copy_witness :
    (0 : Nat) < (ArrayHeap.mk [[⟨0, 1⟩]]).arrs.length
    ∧ readArr
        (writeArr (getLatencyHistoryH ⟨[[⟨0, 1⟩]]⟩ 0).1 (getLatencyHistoryH ⟨[[⟨0, 1⟩]]⟩ 0).2
          ((fun _ => []) (readArr ⟨[[⟨0, 1⟩]]⟩ 0)))
        0
        = readArr ⟨[[⟨0, 1⟩]]⟩ 0 :=
  ⟨by decide,
   (getLatencyHistory_defensive_copy ⟨[[⟨0, 1⟩]]⟩ 0 (fun _ => []) (by decide)).2.2⟩

/-- Diagnostics thresholds. -/
def DNS_SLOW_MS : ℚ := 100

def CONNECT_SLOW_MS : ℚ := 200

/-- A diagnostics endpoint `{ url, name, beacon? }`. -/
structure DiagEndpoint where
  url : String
  name : String
  beacon : Bool
deriving DecidableEq, Repr

def epCloudflare : DiagEndpoint :=
  ⟨"https://api.cloudflare.com/cdn-cgi/trace", "Cloudflare", false⟩

def epHttpbin : DiagEndpoint := ⟨"https://httpbin.org/get", "httpbin", false⟩

def epIpify : DiagEndpoint := ⟨"https://api.ipify.org?format=json", "ipify", false⟩

def epGoogleBeacon : DiagEndpoint :=
  ⟨"https://www.google.com/favicon.ico", "Google (beacon)", true⟩

def DIAG_ENDPOINTS : List DiagEndpoint :=
  [epCloudflare, epHttpbin, epIpify, epGoogleBeacon]

/-- The suggestion strings pushed by `runDiagnostics`. -/
def TIP_POWER_CYCLE : String :=
  "Check modem and router — power cycle both and wait a minute."

def TIP_OTHER_DEVICES : String :=
  "Confirm other devices on the same network — if they’re also offline, the issue is likely your ISP or equipment."

def TIP_CONTACT_ISP : String := "Contact your ISP if the outage continues."

def TIP_SERVICE_DOWN : String :=
  "Some services are reachable and others aren’t — specific sites or providers may be down."

def TIP_TRY_OTHER : String :=
  "Try a different website or app to see if the problem is limited to one service."

def TIP_DNS_SLOW : String :=
  "DNS is slow — try changing your DNS to 8.8.8.8 (Google) or 1.1.1.1 (Cloudflare) in your router or device settings."

def TIP_CONNECT_SLOW : String :=
  "Connection to the server is slow — check firewall, VPN, or local network congestion."

/-- Result of `probeEndpoint` as consumed by the aggregation. -/
structure DiagProbe where
  ok : Bool
  name : String
deriving DecidableEq, Repr

/-- The DiagnosticsResult record. -/
structure DiagResult where
  dnsOk : Bool
  endpointsReached : List String
  latencyBreakdown : Option Timing
  suggestions : List String
deriving DecidableEq, Repr

/-- Worker of `[...new Set(xs)]`: keep each element's first occurrence, in
iteration order. -/
def dedupGo (seen : List String) : List String → List String
  | [] => []
  | a :: rest => if a ∈ seen then dedupGo seen rest else a :: dedupGo (a :: seen) rest

/-- `[...new Set(xs)]`. -/
def jsSetDedup (l : List String) : List String := dedupGo [] l

/-- The suggestions pushed from the reachability outcome: all failed, some
(but not all) failed, or none failed. -/
def baseSuggestions (reachedLen : Nat) : List String :=
  if reachedLen = 0 then
    [TIP_POWER_CYCLE, TIP_OTHER_DEVICES, TIP_CONTACT_ISP]
  else if 0 < reachedLen ∧ reachedLen < DIAG_ENDPOINTS.length then
    [TIP_SERVICE_DOWN, TIP_TRY_OTHER]
  else []

/-- The suggestions pushed from the timing breakdown, when one is
available: slow DNS phase, slow connect phase. -/
def timingSuggestions (b : Option Timing) : List String :=
  match b with
  | none => []
  | some t =>
      (if DNS_SLOW_MS ≤ t.dns then [TIP_DNS_SLOW] else [])
        ++ (if CONNECT_SLOW_MS ≤ t.connect then [TIP_CONNECT_SLOW] else [])

/-- The aggregation step of `runDiagnostics` after the parallel probes have
settled and the breakdown has been looked up. -/
def diagAggregate (results : List DiagProbe) (latencyBreakdown : Option Timing) :
    DiagResult :=
  let endpointsReached := (results.filter fun r => r.ok).map fun r => r.name
  { dnsOk := decide (0 < endpointsReached.length),
    endpointsReached := endpointsReached,
    latencyBreakdown := latencyBreakdown,
    suggestions :=
      jsSetDedup
        (baseSuggestions endpointsReached.length
          ++ timingSuggestions latencyBreakdown) }

/-- `runDiagnostics`: probe the four endpoints (outcomes supplied by the
environment through `probeOk`), take the first available timing breakdown
among the non-beacon endpoints in configured order, and aggregate. -/
def runDiagnosticsModel (probeOk : DiagEndpoint → Bool)
    (timingFor : String → Option Timing) : DiagResult :=
  let results := DIAG_ENDPOINTS.map fun ep => DiagProbe.mk (probeOk ep) ep.name
  let latencyBreakdown :=
    (DIAG_ENDPOINTS.filter fun ep => !ep.beacon).findSome? fun ep => timingFor ep.url
  diagAggregate results latencyBreakdown

/-- `probeEndpoint`: the underlying fetch or image-beacon load may throw
(`attempt` is its outcome); every failure path is caught inside the prober
and becomes an `ok: false` result — no exception escapes it. -/
def probeEndpointE (ep : DiagEndpoint) (attempt : Except String Nat) : DiagProbe :=
  match attempt with
  | Except.ok _ => ⟨true, ep.name⟩
  | Except.error _ => ⟨false, ep.name⟩

/-- `runDiagnostics()` in the exception monad: the awaited probes are each
caught at the prober boundary, and aggregation is pure. -/
def runDiagnosticsE (attempt : DiagEndpoint → Except String Nat)
    (timingFor : String → Option Timing) : Except String DiagResult := do
  let results := DIAG_ENDPOINTS.map fun ep => probeEndpointE ep (attempt ep)
  let latencyBreakdown :=
    (DIAG_ENDPOINTS.filter fun ep => !ep.beacon).findSome? fun ep => timingFor ep.url
  return diagAggregate results latencyBreakdown

/-- C8: `runDiagnostics` never rejects: whatever each probe's fetch does —
including every probe throwing — the run resolves to a DiagnosticsResult. -/
theorem runDiagnostics_never_rejects (attempt : DiagEndpoint → Except String Nat)
    (timingFor : String → Option Timing) :
    ∃ r : DiagResult, runDiagnosticsE attempt timingFor = Except.ok r :=
  ⟨_, rfl⟩

/-- Membership in the dedup worker: kept iff present and not already seen. -/
lemma mem_dedupGo (x : String) (l : List String) :
    ∀ seen, x ∈ dedupGo seen l ↔ (x ∈ l ∧ x ∉ seen) := by
  induction l with
  | nil => intro seen; simp [dedupGo]
  | cons a rest ih =>
      intro seen
      simp only [dedupGo]
      split
      · rename_i ha
        rw [ih]
        constructor
        · rintro ⟨h1, h2⟩
          exact ⟨List.mem_cons_of_mem _ h1, h2⟩
        · rintro ⟨h1, h2⟩
          rcases List.mem_cons.mp h1 with rfl | h1
          · exact absurd ha h2
          · exact ⟨h1, h2⟩
      · rename_i ha
        rw [List.mem_cons, ih]
        constructor
        · rintro (rfl | ⟨h1, h2⟩)
          · exact ⟨List.mem_cons_self _ _, ha⟩
          · exact ⟨List.mem_cons_of_mem _ h1, fun hs => h2 (List.mem_cons_of_mem _ hs)⟩
        · rintro ⟨h1, h2⟩
          rcases List.mem_cons.mp h1 with rfl | h1
          · exact Or.inl rfl
          · by_cases hxa : x = a
            · exact Or.inl hxa
            · refine Or.inr ⟨h1, fun hs => ?_⟩
              rcases List.mem_cons.mp hs with h | h
              · exact hxa h
              · exact h2 h

/-- `[...new Set(xs)]` preserves membership. -/
lemma mem_jsSetDedup (x : String) (l : List String) :
    x ∈ jsSetDedup l ↔ x ∈ l := by
  simp [jsSetDedup, mem_dedupGo]

/-- Every timing suggestion is the DNS tip or the connect tip. -/
lemma mem_timingSuggestions (x : String) (b : Option Timing)
    (hx : x ∈ timingSuggestions b) :
    x = TIP_DNS_SLOW ∨ x = TIP_CONNECT_SLOW := by
  rcases b with - | t
  · simp [timingSuggestions] at hx
  · simp only [timingSuggestions] at hx
    by_cases h1 : DNS_SLOW_MS ≤ t.dns <;> by_cases h2 : CONNECT_SLOW_MS ≤ t.connect <;>
      simp [h1, h2] at hx <;> tauto

/-- The DNS tip appears among the timing suggestions exactly when a
breakdown is present with a DNS phase at or above the threshold. -/
lemma mem_timingSuggestions_dns (b : Option Timing) :
    TIP_DNS_SLOW ∈ timingSuggestions b
      ↔ ∃ t, b = some t ∧ DNS_SLOW_MS ≤ t.dns := by
  have hne : TIP_DNS_SLOW ≠ TIP_CONNECT_SLOW := by decide
  rcases b with - | t
  · simp [timingSuggestions]
  · simp only [timingSuggestions]
    by_cases h1 : DNS_SLOW_MS ≤ t.dns <;> by_cases h2 : CONNECT_SLOW_MS ≤ t.connect <;>
      simp [h1, h2, hne]

/-- The connect tip appears among the timing suggestions exactly when a
breakdown is present with a connect phase at or above the threshold. -/
lemma mem_timingSuggestions_connect (b : Option Timing) :
    TIP_CONNECT_SLOW ∈ timingSuggestions b
      ↔ ∃ t, b = some t ∧ CONNECT_SLOW_MS ≤ t.connect := by
  have hne : TIP_CONNECT_SLOW ≠ TIP_DNS_SLOW := by decide
  rcases b with - | t
  · simp [timingSuggestions]
  · simp only [timingSuggestions]
    by_cases h1 : DNS_SLOW_MS ≤ t.dns <;> by_cases h2 : CONNECT_SLOW_MS ≤ t.connect <;>
      simp [h1, h2, hne]

/-- Below both thresholds (or with no breakdown) no timing tip is pushed. -/
lemma timingSuggestions_eq_nil (b : Option Timing)
    (h : ∀ t, b = some t → t.dns < DNS_SLOW_MS ∧ t.connect < CONNECT_SLOW_MS) :
    timingSuggestions b = [] := by
  rcases b with - | t
  · rfl
  · obtain ⟨h1, h2⟩ := h t rfl
    simp [timingSuggestions, not_le.mpr h1, not_le.mpr h2]

/-- A tip belonging to the reachability bucket is in the final list. -/
lemma mem_sugg_base (x : String) (base : List String) (b : Option Timing)
    (h : x ∈ base) : x ∈ jsSetDedup (base ++ timingSuggestions b) := by
  rw [mem_jsSetDedup, List.mem_append]
  exact Or.inl h

/-- A tip in neither bucket is absent from the final list. -/
lemma not_mem_sugg (x : String) (base : List String) (b : Option Timing)
    (h1 : x ∉ base) (h6 : x ≠ TIP_DNS_SLOW) (h7 : x ≠ TIP_CONNECT_SLOW) :
    x ∉ jsSetDedup (base ++ timingSuggestions b) := by
  rw [mem_jsSetDedup, List.mem_append]
  rintro (h | h)
  · exact h1 h
  · rcases mem_timingSuggestions x b h with rfl | rfl
    · exact h6 rfl
    · exact h7 rfl

/-- The DNS tip is in the final list exactly when its threshold rule fires. -/
lemma tip_dns_iff (base : List String) (b : Option Timing)
    (hb : TIP_DNS_SLOW ∉ base) :
    TIP_DNS_SLOW ∈ jsSetDedup (base ++ timingSuggestions b)
      ↔ ∃ t, b = some t ∧ DNS_SLOW_MS ≤ t.dns := by
  rw [mem_jsSetDedup, List.mem_append, mem_timingSuggestions_dns]
  constructor
  · rintro (h | h)
    · exact absurd h hb
    · exact h
  · exact Or.inr

/-- The connect tip is in the final list exactly when its rule fires. -/
lemma tip_connect_iff (base : List String) (b : Option Timing)
    (hb : TIP_CONNECT_SLOW ∉ base) :
    TIP_CONNECT_SLOW ∈ jsSetDedup (base ++ timingSuggestions b)
      ↔ ∃ t, b = some t ∧ CONNECT_SLOW_MS ≤ t.connect := by
  rw [mem_jsSetDedup, List.mem_append, mem_timingSuggestions_connect]
  constructor
  · rintro (h | h)
    · exact absurd h hb
    · exact h
  · exact Or.inr

/-- The DNS tip never comes from the reachability bucket. -/
lemma dns_not_mem_base (n : Nat) : TIP_DNS_SLOW ∉ baseSuggestions n := by
  unfold baseSuggestions
  split_ifs <;> decide

/-- The connect tip never comes from the reachability bucket. -/
lemma connect_not_mem_base (n : Nat) : TIP_CONNECT_SLOW ∉ baseSuggestions n := by
  unfold baseSuggestions
  split_ifs <;> decide

/-- When every probe fails the reached list is empty. -/
lemma reachedLen_eq_zero (probeOk : DiagEndpoint → Bool)
    (h : ∀ ep ∈ DIAG_ENDPOINTS, probeOk ep = false) :
    (((DIAG_ENDPOINTS.map fun ep => DiagProbe.mk (probeOk ep) ep.name).filter
        fun r => r.ok).map fun r => r.name).length = 0 := by
  rw [List.length_map, List.length_eq_zero, List.filter_eq_nil_iff]
  intro r hr
  rcases List.mem_map.mp hr with ⟨ep, hep, rfl⟩
  simp [h ep hep]

/-- A reachable endpoint makes the reached list non-empty. -/
lemma reachedLen_pos (probeOk : DiagEndpoint → Bool)
    (h : ∃ ep ∈ DIAG_ENDPOINTS, probeOk ep = true) :
    0 < (((DIAG_ENDPOINTS.map fun ep => DiagProbe.mk (probeOk ep) ep.name).filter
        fun r => r.ok).map fun r => r.name).length := by
  obtain ⟨ep, hep, hok⟩ := h
  rw [List.length_map]
  apply List.length_pos_of_mem (a := DiagProbe.mk true ep.name)
  rw [List.mem_filter]
  exact ⟨List.mem_map.mpr ⟨ep, hep, by rw [hok]⟩, rfl⟩

/-- An unreachable endpoint keeps the reached list strictly short of all
four endpoints. -/
lemma reachedLen_lt (probeOk : DiagEndpoint → Bool)
    (h : ∃ ep ∈ DIAG_ENDPOINTS, probeOk ep = false) :
    (((DIAG_ENDPOINTS.map fun ep => DiagProbe.mk (probeOk ep) ep.name).filter
        fun r => r.ok).map fun r => r.name).length < DIAG_ENDPOINTS.length := by
  obtain ⟨ep, hep, hno⟩ := h
  rw [List.length_map]
  have h4 := List.length_map DIAG_ENDPOINTS fun ep => DiagProbe.mk (probeOk ep) ep.name
  rw [← h4]
  apply List.length_filter_lt_length_iff_exists.mpr
  exact ⟨DiagProbe.mk (probeOk ep) ep.name, List.mem_map_of_mem _ hep, by simp [hno]⟩

/-- When every probe succeeds all four endpoints are reached. -/
lemma reachedLen_all (probeOk : DiagEndpoint → Bool)
    (h : ∀ ep ∈ DIAG_ENDPOINTS, probeOk ep = true) :
    (((DIAG_ENDPOINTS.map fun ep => DiagProbe.mk (probeOk ep) ep.name).filter
        fun r => r.ok).map fun r => r.name).length = DIAG_ENDPOINTS.length := by
  rw [List.length_map]
  rw [List.filter_eq_self.mpr]
  · exact List.length_map _ _
  · intro r hr
    rcases List.mem_map.mp hr with ⟨ep, hep, rfl⟩
    simp [h ep hep]

lemma baseSuggestions_zero :
    baseSuggestions 0 = [TIP_POWER_CYCLE, TIP_OTHER_DEVICES, TIP_CONTACT_ISP] := rfl

lemma baseSuggestions_mid (n : Nat) (h1 : 0 < n) (h2 : n < DIAG_ENDPOINTS.length) :
    baseSuggestions n = [TIP_SERVICE_DOWN, TIP_TRY_OTHER] := by
  unfold baseSuggestions
  rw [if_neg (by omega), if_pos ⟨h1, h2⟩]

lemma baseSuggestions_full : baseSuggestions DIAG_ENDPOINTS.length = [] := by decide

/-- C7: the suggestion list of `runDiagnostics` follows the ordered,
set-deduplicated rules: with zero endpoints reachable it carries the three
generic hardware/ISP tips (and not the service-down tips); with some but
not all reachable it carries the two service-down tips instead; the DNS tip
appears exactly when a breakdown is available with DNS phase ≥ 100 ms and
the firewall/VPN tip exactly when its connect phase is ≥ 200 ms; with all
four reachable and all timings under the thresholds it is empty. -/
theorem runDiagnostics_suggestions_spec (probeOk : DiagEndpoint → Bool)
    (timingFor : String → Option Timing) :
    ((∀ ep ∈ DIAG_ENDPOINTS, probeOk ep = false) →
        TIP_POWER_CYCLE ∈ (runDiagnosticsModel probeOk timingFor).suggestions
        ∧ TIP_OTHER_DEVICES ∈ (runDiagnosticsModel probeOk timingFor).suggestions
        ∧ TIP_CONTACT_ISP ∈ (runDiagnosticsModel probeOk timingFor).suggestions
        ∧ TIP_SERVICE_DOWN ∉ (runDiagnosticsModel probeOk timingFor).suggestions
        ∧ TIP_TRY_OTHER ∉ (runDiagnosticsModel probeOk timingFor).suggestions)
    ∧ ((∃ ep ∈ DIAG_ENDPOINTS, probeOk ep = true) →
       (∃ ep ∈ DIAG_ENDPOINTS, probeOk ep = false) →
        TIP_SERVICE_DOWN ∈ (runDiagnosticsModel probeOk timingFor).suggestions
        ∧ TIP_TRY_OTHER ∈ (runDiagnosticsModel probeOk timingFor).suggestions
        ∧ TIP_POWER_CYCLE ∉ (runDiagnosticsModel probeOk timingFor).suggestions
        ∧ TIP_OTHER_DEVICES ∉ (runDiagnosticsModel probeOk timingFor).suggestions
        ∧ TIP_CONTACT_ISP ∉ (runDiagnosticsModel probeOk timingFor).suggestions)
    ∧ (TIP_DNS_SLOW ∈ (runDiagnosticsModel probeOk timingFor).suggestions
        ↔ ∃ t, (runDiagnosticsModel probeOk timingFor).latencyBreakdown = some t
            ∧ DNS_SLOW_MS ≤ t.dns)
    ∧ (TIP_CONNECT_SLOW ∈ (runDiagnosticsModel probeOk timingFor).suggestions
        ↔ ∃ t, (runDiagnosticsModel probeOk timingFor).latencyBreakdown = some t
            ∧ CONNECT_SLOW_MS ≤ t.connect)
    ∧ ((∀ ep ∈ DIAG_ENDPOINTS, probeOk ep = true) →
       (∀ t, (runDiagnosticsModel probeOk timingFor).latencyBreakdown = some t →
          t.dns < DNS_SLOW_MS ∧ t.connect < CONNECT_SLOW_MS) →
        (runDiagnosticsModel probeOk timingFor).suggestions = []) := by
  have hsugg : (runDiagnosticsModel probeOk timingFor).suggestions
      = jsSetDedup
          (baseSuggestions
              (((DIAG_ENDPOINTS.map fun ep => DiagProbe.mk (probeOk ep) ep.name).filter
                  fun r => r.ok).map fun r => r.name).length
            ++ timingSuggestions
                ((DIAG_ENDPOINTS.filter fun ep => !ep.beacon).findSome?
                  fun ep => timingFor ep.url)) := rfl
  have hlb : (runDiagnosticsModel probeOk timingFor).latencyBreakdown
      = (DIAG_ENDPOINTS.filter fun ep => !ep.beacon).findSome?
          fun ep => timingFor ep.url := rfl
  refine ⟨?_, ?_, ?_, ?_, ?_⟩
  · intro h
    rw [hsugg, reachedLen_eq_zero probeOk h, baseSuggestions_zero]
    exact ⟨mem_sugg_base _ _ _ (by simp), mem_sugg_base _ _ _ (by simp),
      mem_sugg_base _ _ _ (by simp),
      not_mem_sugg _ _ _ (by decide) (by decide) (by decide),
      not_mem_sugg _ _ _ (by decide) (by decide) (by decide)⟩
  · intro hT hF
    rw [hsugg,
      baseSuggestions_mid _ (reachedLen_pos probeOk hT) (reachedLen_lt probeOk hF)]
    exact ⟨mem_sugg_base _ _ _ (by simp), mem_sugg_base _ _ _ (by simp),
      not_mem_sugg _ _ _ (by decide) (by decide) (by decide),
      not_mem_sugg _ _ _ (by decide) (by decide) (by decide),
      not_mem_sugg _ _ _ (by decide) (by decide) (by decide)⟩
  · rw [hsugg, hlb]
    exact tip_dns_iff _ _ (dns_not_mem_base _)
  · rw [hsugg, hlb]
    exact tip_connect_iff _ _ (connect_not_mem_base _)
  · intro hall htiming
    rw [hlb] at htiming
    rw [hsugg, reachedLen_all probeOk hall, baseSuggestions_full,
      timingSuggestions_eq_nil _ htiming]
    rfl

/-- Concrete instance of `runDiagnostics_suggestions_spec`: all four probes
succeed and no timing breakdown is available, so no suggestion is made. -/
theorem runDiagnostics_suggestions_spec_witness :
    (∀ ep ∈ DIAG_ENDPOINTS, (fun _ => true) ep = true)
    ∧ (runDiagnosticsModel (fun _ => true) (fun _ => none)).suggestions = [] :=
  ⟨fun _ _ => rfl,
   (runDiagnostics_suggestions_spec (fun _ => true) (fun _ => none)).2.2.2.2
     (fun _ _ => rfl)
     (fun t ht => by
       rw [show (runDiagnosticsModel (fun _ => true) (fun _ => none)).latencyBreakdown
             = none from rfl] at ht
       cases ht)⟩

end Conntivity
